import Mathlib

/-!
Verification of the connection handler, proxy pump, startup sequence and
version comparison of the minecraft-server-hibernation proxy.

The Go sources are embedded shallowly:

* `HandlerClientConn`, `openProxy` (lib/conn, `src/unnamed/part_001`) are
  modelled as pure functions from a snapshot of the shared state
  (`servstats.Stats.Status`, `.Suspended`, `.MajorError`) plus the outcomes
  of the external calls (`IsWhitelist`, `WarmMS`, `net.Dial`) to the ordered
  list of observable actions the Go code performs on that control path
  (writes to the client, pings, closes, warm calls, dials, relay spawns).
  Deferred `clientConn.Close()` calls are placed at the position where the
  deferred function actually runs (function return).

* `forwardTCP` (`src/unnamed/part_001`, lines 257-320) is modelled by the
  trace of shared-state mutation events a single relay performs, driven by
  the sequence of read/write outcomes of its loop iterations.  Each event
  carries an `underM` flag that records whether the source performs that
  mutation between `servstats.Stats.M.Lock()` and `.Unlock()`.

* `main` (`src/minecraft-server-hibernation.go`) is modelled as the ordered
  list of startup steps it performs when configuration loading succeeds.

* `compareVersions` (`src/unnamed/part_002`, lines 309-351) is translated
  directly; Go strings are represented as `List Char` and
  `strings.Split s "."` / `strconv.Atoi` are given faithful executable
  models (`splitDot`, `goAtoi`).
-/

namespace Msh

/-- Client request kinds, `errco.CLIENT_REQ_INFO / _JOIN / _FOREIGN`;
`unknown` stands for any other value of the classifier result, which falls
into the `default` arm of the `switch reqType` in `HandlerClientConn`. -/
inductive ReqType
  | info
  | join
  | foreign
  | unknown
deriving DecidableEq

/-- Server lifecycle states, `errco.SERVER_STATUS_*`. -/
inductive ServerStatus
  | offline
  | starting
  | online
  | stopping
  | suspended
deriving DecidableEq

/-- The distinct message texts passed to `buildMessage` in
`HandlerClientConn` and `openProxy`.  Texts built from runtime data (the
formatted `MajorError`, the config canned messages, the load-progress
suffix) are abstracted to one constructor each; what the claims need is
which literal the source selects, and for which request kind the packet is
shaped (the first argument of `buildMessage`). -/
inductive MsgText
  | majorError
  | infoSuspended
  | infoHibernation
  | infoStarting
  | infoStopping
  | permissionDenied
  | warmError
  | pleaseWait
  | dialError
  | unknownRequest
deriving DecidableEq

/-- Observable actions of one `HandlerClientConn` invocation, in program
order.  `send req txt` is `clientConn.Write(buildMessage(req, txt))`;
`ping` is the `getPing(clientConn)` echo; `warm` is `servctrl.WarmMS()`;
`dial` is the `net.Dial` to `(ServHost, ServPort)` in `openProxy`;
`writeBackend` is `serverSocket.Write(serverInitPacket)`;
`spawnRelay` is `go forwardTCP(...)`.  `setMajorError` would be a write of
`servstats.Stats.MajorError`; no code path of the handler or the proxy
performs one, so no constructor application of it ever appears in a trace. -/
inductive Action
  | send (req : ReqType) (txt : MsgText)
  | ping
  | closeClient
  | warm
  | dial
  | writeBackend
  | spawnRelay (isServerToClient : Bool) (req : ReqType)
  | setMajorError
deriving DecidableEq

/-- Model of `openProxy` (`src/unnamed/part_001`, lines 226-248).
`dialOk` is the outcome of `net.Dial("tcp", ServHost:ServPort)`.  On dial
failure the source logs, writes the JOIN-shaped
cannot-connect message `buildMessage(CLIENT_REQ_JOIN, ...)` to the client and returns; note that it does not
close the client connection.  On success it writes the preserved first
packet to the backend and spawns the two relays. -/
def openProxy (req : ReqType) (dialOk : Bool) : List Action :=
  if dialOk then
    [Action.dial, Action.writeBackend,
     Action.spawnRelay false req, Action.spawnRelay true req]
  else
    [Action.dial, Action.send ReqType.join MsgText.dialError]

/-- The message chosen by the inner `switch` of the INFO branch
(`src/unnamed/part_001`, lines 77-88). -/
def infoReplyText (status : ServerStatus) (suspended : Bool) : MsgText :=
  if status = ServerStatus.suspended ∨ suspended then MsgText.infoSuspended
  else if status = ServerStatus.offline then MsgText.infoHibernation
  else if status = ServerStatus.starting then MsgText.infoStarting
  else if status = ServerStatus.stopping then MsgText.infoStopping
  else MsgText.infoHibernation

/-- Model of `HandlerClientConn` (`src/unnamed/part_001`, lines 23-219)
after a successful classification `getReqType`.

Inputs are the snapshot of shared state read by the handler
(`status` = `servstats.Stats.Status`, `suspended` = `servstats.Stats.Suspended`,
`majorError` = `servstats.Stats.MajorError != nil`) and the outcomes of the
external calls: `whitelistFail` (`config.ConfigRuntime.IsWhitelist` returned
a non-nil log entry), `warmFail` (`servctrl.WarmMS()` returned a non-nil log
entry), `dialOk` (the `net.Dial` in `openProxy` succeeded).

The result is the ordered list of observable actions of that invocation;
deferred closes appear at the point where they run.  The `unknown` arm
mirrors the source `default:` arm, which writes the reply and returns
without closing the connection. -/
def HandlerClientConn (status : ServerStatus) (suspended : Bool)
    (majorError : Bool) (req : ReqType)
    (whitelistFail warmFail dialOk : Bool) : List Action :=
  if majorError then
    -- lines 36-59: deferred close, error reply shaped to reqType,
    -- additional ping echo for INFO requests
    [Action.send req MsgText.majorError]
      ++ (if req = ReqType.info then [Action.ping] else [])
      ++ [Action.closeClient]
  else
    match req with
    | ReqType.info =>
        -- lines 63-104
        if status ≠ ServerStatus.online ∨ suspended then
          [Action.send ReqType.info (infoReplyText status suspended),
           Action.ping, Action.closeClient]
        else
          openProxy ReqType.info dialOk
    | ReqType.join =>
        -- lines 106-199
        if whitelistFail then
          -- lines 111-127: whitelist rejection
          [Action.send ReqType.join MsgText.permissionDenied,
           Action.closeClient]
        else if status = ServerStatus.suspended ∨ suspended then
          -- lines 131-150
          if warmFail then
            [Action.warm, Action.send ReqType.join MsgText.warmError,
             Action.closeClient]
          else
            Action.warm :: openProxy ReqType.join dialOk
        else if status ≠ ServerStatus.online then
          -- lines 152-175
          if warmFail then
            [Action.warm, Action.send ReqType.join MsgText.warmError,
             Action.closeClient]
          else
            [Action.warm, Action.send ReqType.join MsgText.pleaseWait,
             Action.closeClient]
        else
          -- lines 177-198: online and not suspended
          if warmFail then
            [Action.warm, Action.send ReqType.join MsgText.warmError,
             Action.closeClient]
          else
            Action.warm :: openProxy ReqType.join dialOk
    | ReqType.foreign =>
        -- lines 201-212
        if status = ServerStatus.online then
          openProxy ReqType.foreign dialOk
        else
          [Action.closeClient]
    | ReqType.unknown =>
        -- lines 214-218: reply sent, connection left open (no Close in source)
        [Action.send ReqType.unknown MsgText.unknownRequest]

/-- C1: while `StatsRegistry.MajorError` is latched, every client — for
every request kind — receives the canned major-error reply shaped to its
request kind (plus the PING echo for INFO), the connection is closed, and
the handler returns without invoking `WarmMS` and without dialing the
backend (so `ProcessSupervisor.Launch`, reachable only from inside
`WarmMS`, is not invoked either). -/
theorem majorError_latched_no_backend (status : ServerStatus)
    (suspended : Bool) (req : ReqType) (wlFail warmFail dialOk : Bool) :
    HandlerClientConn status suspended true req wlFail warmFail dialOk
        = [Action.send req MsgText.majorError]
            ++ (if req = ReqType.info then [Action.ping] else [])
            ++ [Action.closeClient]
      ∧ Action.warm ∉ HandlerClientConn status suspended true req wlFail warmFail dialOk
      ∧ Action.dial ∉ HandlerClientConn status suspended true req wlFail warmFail dialOk := by
  cases req <;> simp [HandlerClientConn]

/-- C3: a JOIN request rejected by the whitelist check receives exactly the
permission-denied disconnect packet followed by the connection close;
in particular `WarmMS` is not invoked and no action of the trace mutates
the backend status (in the source, the handler changes `Stats.Status` only
through `servctrl.WarmMS`, and the whitelist arm returns before the status
switch is reached). -/
theorem whitelist_reject_no_warm (status : ServerStatus)
    (suspended warmFail dialOk : Bool) :
    HandlerClientConn status suspended false ReqType.join true warmFail dialOk
        = [Action.send ReqType.join MsgText.permissionDenied,
           Action.closeClient]
      ∧ Action.warm ∉ HandlerClientConn status suspended false ReqType.join true warmFail dialOk
      ∧ Action.dial ∉ HandlerClientConn status suspended false ReqType.join true warmFail dialOk := by
  simp [HandlerClientConn]

/-- C5 (evaluation at the failing input): when the dial fails, `openProxy`
— for every request kind — sends the JOIN-shaped cannot-connect reply,
writes nothing to any backend socket and does not latch `MajorError`, but
it also never closes the client connection: `closeClient` is absent from
the trace, contradicting the claim (and spec section 4.7, "On failure,
reply to client with a JOIN-shaped error and close"). -/
theorem openProxy_dial_failure (req : ReqType) :
    openProxy req false
        = [Action.dial, Action.send ReqType.join MsgText.dialError]
      ∧ Action.writeBackend ∉ openProxy req false
      ∧ Action.setMajorError ∉ openProxy req false
      ∧ Action.closeClient ∉ openProxy req false := by
  simp [openProxy]

/-- C6 (evaluation at the failing input): an UNKNOWN request is answered
with the generic unknown-request reply, but the source `default:` arm
returns without ever calling `clientConn.Close()`: `closeClient` is absent
from the trace, contradicting the claim (and spec section 4.6, "Send a
generic unknown-request reply; close"). -/
theorem unknown_request_reply_no_close (status : ServerStatus)
    (suspended wlFail warmFail dialOk : Bool) :
    HandlerClientConn status suspended false ReqType.unknown wlFail warmFail dialOk
        = [Action.send ReqType.unknown MsgText.unknownRequest]
      ∧ Action.closeClient ∉ HandlerClientConn status suspended false ReqType.unknown wlFail warmFail dialOk := by
  simp [HandlerClientConn]

/-- Outcome of one iteration of the `forwardTCP` loop
(`src/unnamed/part_001`, lines 280-319): `ok n` means `source.Read` returned
`n` bytes and `destination.Write` succeeded; `readErr` means the read
failed (EOF/timeout), `writeErr n` means the read returned `n` bytes but the
write failed.  On either error the relay closes both sockets and returns. -/
inductive IterResult
  | ok (n : Nat)
  | readErr
  | writeErr (n : Nat)
deriving DecidableEq

/-- Mutations of the shared `servstats.Stats` record performed by
`forwardTCP` and `printDataUsage`, plus the `servctrl.FreezeMSSchedule()`
call.  The `underM` flag records whether the source performs that mutation
between `servstats.Stats.M.Lock()` and `servstats.Stats.M.Unlock()`. -/
inductive MutEvent
  | connInc (underM : Bool)
  | connDec (underM : Bool)
  | bytesToClientsAdd (n : Nat) (underM : Bool)
  | bytesToServerAdd (n : Nat) (underM : Bool)
  | bytesReset (underM : Bool)
  | freezeCall
deriving DecidableEq

/-- Mutation events of one successful loop iteration that forwarded `n`
bytes (`src/unnamed/part_001`, lines 307-318): the byte counters are
incremented, under `Stats.M`, only when
`config.ConfigRuntime.Msh.ShowInternetUsage && errco.DebugLvl >= errco.LVL_3`;
`dbgOk` stands for the second conjunct. -/
def iterEvents (isServerToClient showUsage dbgOk : Bool) (n : Nat) :
    List MutEvent :=
  if showUsage ∧ dbgOk then
    [if isServerToClient then MutEvent.bytesToClientsAdd n true
     else MutEvent.bytesToServerAdd n true]
  else []

/-- Mutation events of the `forwardTCP` loop: successful iterations
contribute their byte-counter events; the first failing iteration ends the
loop (the relay closes both sockets and returns, performing no further
mutation inside the loop). -/
def loopEvents (isServerToClient showUsage dbgOk : Bool) :
    List IterResult → List MutEvent
  | [] => []
  | IterResult.ok n :: rest =>
      iterEvents isServerToClient showUsage dbgOk n
        ++ loopEvents isServerToClient showUsage dbgOk rest
  | IterResult.readErr :: _ => []
  | IterResult.writeErr _ :: _ => []

/-- Whether the iteration sequence makes the `forwardTCP` loop return (the
relay exits exactly when some iteration fails; with only successful
iterations it is still blocked in `source.Read`). -/
def terminated : List IterResult → Bool
  | [] => false
  | IterResult.ok _ :: rest => terminated rest
  | IterResult.readErr :: _ => true
  | IterResult.writeErr _ :: _ => true

/-- Mutation-event trace of one `forwardTCP` call
(`src/unnamed/part_001`, lines 257-320).  On entry, if
`isServerToClient && req == CLIENT_REQ_JOIN`, `Stats.ConnCount++` is
executed (line 269, not under `Stats.M`) and a deferred function is
registered that on return executes `Stats.ConnCount--` (line 273, not under
`Stats.M`) followed by `servctrl.FreezeMSSchedule()` (line 276). -/
def forwardTCPEvents (isServerToClient : Bool) (req : ReqType)
    (showUsage dbgOk : Bool) (iters : List IterResult) : List MutEvent :=
  (if isServerToClient ∧ req = ReqType.join then [MutEvent.connInc false]
   else [])
    ++ loopEvents isServerToClient showUsage dbgOk iters
    ++ (if (isServerToClient ∧ req = ReqType.join) ∧ terminated iters = true
        then [MutEvent.connDec false, MutEvent.freezeCall]
        else [])

/-- Mutation events of one tick of `printDataUsage`
(`src/unnamed/part_001`, lines 329-346): when `ShowInternetUsage` is set
and a byte counter is non-zero, both counters are reset under `Stats.M`. -/
def printDataUsageTick (showUsage : Bool)
    (bytesToClients bytesToServer : Nat) : List MutEvent :=
  if showUsage ∧ (bytesToClients ≠ 0 ∨ bytesToServer ≠ 0) then
    [MutEvent.bytesReset true]
  else []

/-- Number of `ConnCount` increments in a trace. -/
def countConnInc (l : List MutEvent) : Nat :=
  l.countP (fun e => match e with | MutEvent.connInc _ => true | _ => false)

/-- Number of `ConnCount` decrements in a trace. -/
def countConnDec (l : List MutEvent) : Nat :=
  l.countP (fun e => match e with | MutEvent.connDec _ => true | _ => false)

/-- Number of `FreezeMSSchedule` calls in a trace. -/
def countFreeze (l : List MutEvent) : Nat :=
  l.countP (fun e => match e with | MutEvent.freezeCall => true | _ => false)

/-- Every mutation event of the relay loop body is a byte-counter
accumulation performed under the mutex. -/
lemma loopEvents_mem (isStC su db : Bool) (iters : List IterResult) :
    ∀ e ∈ loopEvents isStC su db iters,
      (∃ n, e = MutEvent.bytesToClientsAdd n true) ∨
        (∃ n, e = MutEvent.bytesToServerAdd n true) := by
  induction iters with
  | nil => intro e he; simp [loopEvents] at he
  | cons i rest ih =>
      cases i with
      | ok n =>
          intro e he
          simp only [loopEvents, List.mem_append] at he
          rcases he with he | he
          · unfold iterEvents at he
            split at he
            · rw [List.mem_singleton] at he
              subst he
              cases isStC
              · exact Or.inr ⟨n, rfl⟩
              · exact Or.inl ⟨n, rfl⟩
            · simp at he
          · exact ih e he
      | readErr => intro e he; simp [loopEvents] at he
      | writeErr n => intro e he; simp [loopEvents] at he

/-- C2: connection accounting of the proxy pump.  For a single relay of a
proxy pair: `ConnCount` is incremented exactly once iff the relay is the
server-to-client one of a JOIN proxy, and the increment is its very first
event; when that relay exits (its loop hit an error), its last two events
are the decrement followed by the `FreezeMSSchedule` call; a relay of an
INFO or FOREIGN proxy, and the client-to-server relay of any proxy, never
touches `ConnCount` and never calls `FreezeMSSchedule`. -/
theorem forwardTCP_conn_accounting (isStC : Bool) (req : ReqType)
    (su db : Bool) (iters : List IterResult) :
    countConnInc (forwardTCPEvents isStC req su db iters)
        = (if isStC ∧ req = ReqType.join then 1 else 0)
      ∧ countConnDec (forwardTCPEvents isStC req su db iters)
        = (if (isStC ∧ req = ReqType.join) ∧ terminated iters = true then 1 else 0)
      ∧ countFreeze (forwardTCPEvents isStC req su db iters)
        = (if (isStC ∧ req = ReqType.join) ∧ terminated iters = true then 1 else 0)
      ∧ (isStC ∧ req = ReqType.join →
          (forwardTCPEvents isStC req su db iters).head? = some (MutEvent.connInc false))
      ∧ ((isStC ∧ req = ReqType.join) ∧ terminated iters = true →
          (forwardTCPEvents isStC req su db iters).reverse.take 2
            = [MutEvent.freezeCall, MutEvent.connDec false]) := by
  unfold forwardTCPEvents
  refine ⟨?_, ?_, ?_, ?_, ?_⟩
  · by_cases h : isStC ∧ req = ReqType.join <;>
      by_cases ht : terminated iters = true <;>
        simp [h, ht, countConnInc, List.countP_append] <;>
        (intro a ha
         rcases loopEvents_mem _ _ _ _ a ha with ⟨n, rfl⟩ | ⟨n, rfl⟩ <;> rfl)
  · by_cases h : isStC ∧ req = ReqType.join <;>
      by_cases ht : terminated iters = true <;>
        simp [h, ht, countConnDec, List.countP_append] <;>
        (intro a ha
         rcases loopEvents_mem _ _ _ _ a ha with ⟨n, rfl⟩ | ⟨n, rfl⟩ <;> rfl)
  · by_cases h : isStC ∧ req = ReqType.join <;>
      by_cases ht : terminated iters = true <;>
        simp [h, ht, countFreeze, List.countP_append] <;>
        (intro a ha
         rcases loopEvents_mem _ _ _ _ a ha with ⟨n, rfl⟩ | ⟨n, rfl⟩ <;> rfl)
  · intro h
    simp [h]
  · intro h
    simp [h.1, h.2]

/-- C2 witness: concrete evaluation for a JOIN server-to-client relay whose
first read fails. -/
theorem forwardTCP_conn_accounting_witness :
    countConnInc (forwardTCPEvents true ReqType.join false false [IterResult.readErr]) = 1
      ∧ (forwardTCPEvents true ReqType.join false false [IterResult.readErr]).head?
          = some (MutEvent.connInc false)
      ∧ (forwardTCPEvents true ReqType.join false false [IterResult.readErr]).reverse.take 2
          = [MutEvent.freezeCall, MutEvent.connDec false]
      ∧ countConnInc (forwardTCPEvents false ReqType.info false false [IterResult.readErr]) = 0 := by
  have h := forwardTCP_conn_accounting true ReqType.join false false [IterResult.readErr]
  have h2 := forwardTCP_conn_accounting false ReqType.info false false [IterResult.readErr]
  refine ⟨?_, h.2.2.2.1 (by exact ⟨rfl, rfl⟩), h.2.2.2.2 (by exact ⟨⟨rfl, rfl⟩, rfl⟩), ?_⟩
  · rw [h.1]; rfl
  · rw [h2.1]; rfl

/-- The byte counts successfully forwarded by the loop: the `dataLen` of
each iteration whose read and write both succeeded, up to the iteration
that ends the loop. -/
def okLens : List IterResult → List Nat
  | [] => []
  | IterResult.ok n :: rest => n :: okLens rest
  | IterResult.readErr :: _ => []
  | IterResult.writeErr _ :: _ => []

/-- Recognizer for byte-counter accumulation events. -/
def isBytesAdd : MutEvent → Bool
  | MutEvent.bytesToClientsAdd _ _ => true
  | MutEvent.bytesToServerAdd _ _ => true
  | _ => false

lemma loopEvents_filter_isBytesAdd (isStC su db : Bool)
    (iters : List IterResult) :
    (loopEvents isStC su db iters).filter isBytesAdd
      = if su ∧ db then
          (okLens iters).map (fun n =>
            if isStC then MutEvent.bytesToClientsAdd n true
            else MutEvent.bytesToServerAdd n true)
        else [] := by
  induction iters with
  | nil => simp [loopEvents, okLens]
  | cons i rest ih =>
      cases i with
      | ok n =>
          simp only [loopEvents, okLens, List.filter_append, ih]
          unfold iterEvents
          by_cases hc : (su : Prop) ∧ (db : Prop)
          · simp only [if_pos hc, List.map_cons]
            cases isStC <;> simp [isBytesAdd]
          · simp [if_neg hc]
      | readErr => simp [loopEvents, okLens]
      | writeErr n => simp [loopEvents, okLens]

/-- C7 counterexample: with `ShowInternetUsage` enabled but
`errco.DebugLvl < errco.LVL_3`, a relay iteration that successfully reads
(and forwards) 5 bytes produces no byte-counter accumulation at all — the
trace of the server-to-client INFO relay is empty, so accumulation is not
conditioned on `ShowInternetUsage` alone. -/
theorem bytes_not_accumulated_at_low_debug :
    forwardTCPEvents true ReqType.info true false [IterResult.ok 5] = [] := by
  rfl

/-- C7 (amended): the byte-counter accumulations of a relay are exactly one
event per successfully forwarded iteration (in order, with its `dataLen`),
added to `BytesToClients` for the server-to-client direction and
`BytesToServer` otherwise, each performed while holding `Stats.M` — and
they occur iff `ShowInternetUsage` is enabled AND the debug level is at
least `LVL_3` (the source condition at line 308). -/
theorem forwardTCP_bytes_accounting (isStC : Bool) (req : ReqType)
    (su db : Bool) (iters : List IterResult) :
    (forwardTCPEvents isStC req su db iters).filter isBytesAdd
      = if su ∧ db then
          (okLens iters).map (fun n =>
            if isStC then MutEvent.bytesToClientsAdd n true
            else MutEvent.bytesToServerAdd n true)
        else [] := by
  unfold forwardTCPEvents
  rw [List.filter_append, List.filter_append,
    loopEvents_filter_isBytesAdd isStC su db iters]
  by_cases h : isStC ∧ req = ReqType.join <;>
    by_cases ht : terminated iters = true <;>
      by_cases hc : (su : Prop) ∧ (db : Prop) <;>
        simp [h, ht, hc, isBytesAdd]

/-- Mutex discipline actually present in the source: byte-counter
mutations (the accumulations in `forwardTCP` and the reset in
`printDataUsage`) carry `underM = true`, while the `ConnCount` increment
and decrement in `forwardTCP` carry `underM = false`. -/
def lockDiscipline : MutEvent → Bool
  | MutEvent.connInc u => !u
  | MutEvent.connDec u => !u
  | MutEvent.bytesToClientsAdd _ u => u
  | MutEvent.bytesToServerAdd _ u => u
  | MutEvent.bytesReset u => u
  | MutEvent.freezeCall => true

/-- C8 counterexample: the server-to-client JOIN relay begins by executing
`Stats.ConnCount++` (line 269) without holding `Stats.M` — the trace
contains a `ConnCount` mutation with `underM = false`, so not every
mutation of `ConnCount` is performed under the mutex. -/
theorem connCount_mutated_without_mutex :
    MutEvent.connInc false ∈ forwardTCPEvents true ReqType.join false false [] := by
  decide

/-- C8 (amended): in every relay trace and every `printDataUsage` tick, the
byte-counter mutations (`BytesToClients`/`BytesToServer` accumulation and
the once-per-second reset) are performed while holding `Stats.M`, whereas
the `ConnCount` increment and decrement of `forwardTCP` are performed
without holding `Stats.M`. -/
theorem mutation_lock_discipline (isStC : Bool) (req : ReqType)
    (su db : Bool) (iters : List IterResult) (showUsage : Bool)
    (btc bts : Nat) :
    (forwardTCPEvents isStC req su db iters).all lockDiscipline = true
      ∧ (printDataUsageTick showUsage btc bts).all lockDiscipline = true := by
  constructor
  · rw [List.all_eq_true]
    intro e he
    unfold forwardTCPEvents at he
    simp only [List.mem_append] at he
    rcases he with (he | he) | he
    · by_cases h : isStC ∧ req = ReqType.join <;> simp [h] at he
      subst he; rfl
    · rcases loopEvents_mem _ _ _ _ e he with ⟨n, rfl⟩ | ⟨n, rfl⟩ <;> rfl
    · by_cases h : (isStC ∧ req = ReqType.join) ∧ terminated iters = true <;>
        simp [h] at he
      rcases he with rfl | rfl <;> rfl
  · rw [List.all_eq_true]
    intro e he
    unfold printDataUsageTick at he
    split at he
    · rw [List.mem_singleton] at he; subst he; rfl
    · simp at he

/-- Effect of a mutation event on `Stats.ConnCount`. -/
def connDelta : MutEvent → Int
  | MutEvent.connInc _ => 1
  | MutEvent.connDec _ => -1
  | _ => 0

/-- Starting from counter value `c`, the counter stays non-negative after
every event of the trace (and `c` itself is non-negative). -/
def connRunOk : Int → List MutEvent → Bool
  | c, [] => decide (0 ≤ c)
  | c, e :: es => decide (0 ≤ c) && connRunOk (c + connDelta e) es

/-- An interleaving of two event traces, preserving the order within each. -/
inductive Merge2 : List MutEvent → List MutEvent → List MutEvent → Prop
  | nil : Merge2 [] [] []
  | left (x : MutEvent) (xs ys zs : List MutEvent) :
      Merge2 xs ys zs → Merge2 (x :: xs) ys (x :: zs)
  | right (y : MutEvent) (xs ys zs : List MutEvent) :
      Merge2 xs ys zs → Merge2 xs (y :: ys) (y :: zs)

/-- An interleaving of any number of event traces: the global order of
shared-state mutations produced by one schedule of the goroutines. -/
inductive InterleavingOf : List (List MutEvent) → List MutEvent → Prop
  | nil : InterleavingOf [] []
  | cons (t : List MutEvent) (ts : List (List MutEvent))
      (s u : List MutEvent) :
      Merge2 t s u → InterleavingOf ts s → InterleavingOf (t :: ts) u

lemma connRunOk_start {c : Int} {es : List MutEvent}
    (h : connRunOk c es = true) : 0 ≤ c := by
  cases es <;> simp [connRunOk] at h
  · exact h
  · exact h.1

lemma merge2_connRunOk {xs ys zs : List MutEvent} (m : Merge2 xs ys zs) :
    ∀ a b : Int, connRunOk a xs = true → connRunOk b ys = true →
      connRunOk (a + b) zs = true := by
  induction m with
  | nil =>
      intro a b ha hb
      simp [connRunOk] at ha hb ⊢
      omega
  | left x xs ys zs _ ih =>
      intro a b ha hb
      simp only [connRunOk, Bool.and_eq_true, decide_eq_true_eq] at ha ⊢
      have hb0 := connRunOk_start hb
      refine ⟨by omega, ?_⟩
      have := ih (a + connDelta x) b ha.2 hb
      have hcomm : a + connDelta x + b = a + b + connDelta x := by ring
      rwa [hcomm] at this
  | right y xs ys zs _ ih =>
      intro a b ha hb
      simp only [connRunOk, Bool.and_eq_true, decide_eq_true_eq] at hb ⊢
      have ha0 := connRunOk_start ha
      refine ⟨by omega, ?_⟩
      have := ih a (b + connDelta y) ha hb.2
      have hcomm : a + (b + connDelta y) = a + b + connDelta y := by ring
      rwa [hcomm] at this

lemma interleaving_connRunOk {ts : List (List MutEvent)} {u : List MutEvent}
    (h : InterleavingOf ts u) (hok : ∀ t ∈ ts, connRunOk 0 t = true) :
    connRunOk 0 u = true := by
  induction h with
  | nil => rfl
  | cons t ts s u m _ ih =>
      have hs : connRunOk 0 s = true := ih (fun x hx => hok x (List.mem_cons_of_mem t hx))
      have ht : connRunOk 0 t = true := hok t (List.mem_cons_self t ts)
      have := merge2_connRunOk m 0 0 ht hs
      simpa using this

/-- Appending a relay-loop body to a trace does not change the counter run:
every loop event has `connDelta = 0` and the running value stays at `c`. -/
lemma connRunOk_loop_append (isStC su db : Bool) (iters : List IterResult)
    (tail : List MutEvent) (c : Int) (hc : 0 ≤ c) :
    connRunOk c (loopEvents isStC su db iters ++ tail) = connRunOk c tail := by
  induction iters with
  | nil => rfl
  | cons i rest ih =>
      cases i with
      | ok n =>
          simp only [loopEvents, List.append_assoc]
          unfold iterEvents
          by_cases h : (su : Prop) ∧ (db : Prop)
          · rw [if_pos h]
            cases isStC <;>
              simp only [List.cons_append, List.nil_append, connRunOk,
                connDelta, add_zero, ih, decide_eq_true_eq,
                Bool.true_and, decide_eq_true hc, if_true, if_false,
                Bool.ite_eq_true_distrib] <;>
              simp [ih]
          · rw [if_neg h]
            simpa using ih
      | readErr => rfl
      | writeErr n => rfl

/-- The parameters of one `forwardTCP` invocation: direction, request kind,
telemetry flags, and the outcomes of its loop iterations. -/
structure RelayRun where
  isServerToClient : Bool
  req : ReqType
  showUsage : Bool
  dbgOk : Bool
  iters : List IterResult

/-- The mutation-event trace of one relay run. -/
def RelayRun.events (r : RelayRun) : List MutEvent :=
  forwardTCPEvents r.isServerToClient r.req r.showUsage r.dbgOk r.iters

/-- Every single relay keeps the counter at 0 or 1 starting from 0: its
decrement is preceded by its own increment. -/
lemma connRunOk_cons (c : Int) (e : MutEvent) (es : List MutEvent) :
    connRunOk c (e :: es) = (decide (0 ≤ c) && connRunOk (c + connDelta e) es) :=
  rfl

lemma relay_connRunOk (r : RelayRun) : connRunOk 0 r.events = true := by
  unfold RelayRun.events forwardTCPEvents
  by_cases h : r.isServerToClient ∧ r.req = ReqType.join
  · by_cases ht : terminated r.iters = true
    · rw [if_pos h, if_pos ⟨h, ht⟩, List.append_assoc]
      rw [show ([MutEvent.connInc false] ++
          (loopEvents r.isServerToClient r.showUsage r.dbgOk r.iters ++
            [MutEvent.connDec false, MutEvent.freezeCall]))
        = MutEvent.connInc false ::
          (loopEvents r.isServerToClient r.showUsage r.dbgOk r.iters ++
            [MutEvent.connDec false, MutEvent.freezeCall]) from rfl]
      rw [connRunOk_cons, Bool.and_eq_true]
      refine ⟨by decide, ?_⟩
      rw [connRunOk_loop_append _ _ _ _ _ _ (by decide)]
      decide
    · rw [if_pos h, if_neg (by simp [ht]), List.append_assoc]
      rw [show ([MutEvent.connInc false] ++
          (loopEvents r.isServerToClient r.showUsage r.dbgOk r.iters ++ []))
        = MutEvent.connInc false ::
          (loopEvents r.isServerToClient r.showUsage r.dbgOk r.iters ++ []) from rfl]
      rw [connRunOk_cons, Bool.and_eq_true]
      refine ⟨by decide, ?_⟩
      rw [connRunOk_loop_append _ _ _ _ _ _ (by decide)]
      decide
  · have hcon : ¬((r.isServerToClient ∧ r.req = ReqType.join) ∧
        terminated r.iters = true) := fun hc => h hc.1
    rw [if_neg h, if_neg hcon, List.nil_append,
      connRunOk_loop_append _ _ _ _ _ _ (le_refl 0)]
    decide

/-- C4: the `ConnCount ≥ 0` invariant.  The only mutations of
`Stats.ConnCount` in the source are the increment/decrement pair of
`forwardTCP`; starting from the initial value 0 (the Go zero value of the
`servstats` record), after every event of any interleaving of any finite
set of relay traces the counter is non-negative, because each decrement is
the deferred counterpart of an earlier increment by the same relay. -/
theorem connCount_nonneg (runs : List RelayRun) (t : List MutEvent)
    (h : InterleavingOf (runs.map RelayRun.events) t) :
    connRunOk 0 t = true := by
  refine interleaving_connRunOk h ?_
  intro tr htr
  rcases List.mem_map.mp htr with ⟨r, _, rfl⟩
  exact relay_connRunOk r

/-- Helper for the witness: a trace interleaved with nothing is itself. -/
lemma merge2_nil_right (xs : List MutEvent) : Merge2 xs [] xs := by
  induction xs with
  | nil => exact Merge2.nil
  | cons x rest ih => exact Merge2.left x rest [] rest ih

/-- C4 witness: a single terminated JOIN relay, scheduled alone. -/
theorem connCount_nonneg_witness :
    connRunOk 0 (RelayRun.events
      { isServerToClient := true, req := ReqType.join, showUsage := false,
        dbgOk := false, iters := [IterResult.readErr] }) = true := by
  refine connCount_nonneg
    [{ isServerToClient := true, req := ReqType.join, showUsage := false,
       dbgOk := false, iters := [IterResult.readErr] }] _ ?_
  exact InterleavingOf.cons _ [] [] _
    (merge2_nil_right _) InterleavingOf.nil

/-- The steps of `main` (`src/minecraft-server-hibernation.go`, lines
35-88) in program order, on the path where `config.LoadConfig` succeeds. -/
inductive MainStep
  | loadConfig
  | startMshMgr
  | waitReqSent
  | warmMS
  | startInput
  | startQueryHandler
  | listenTCP
  | acceptLoop
deriving DecidableEq

/-- Model of `main` when configuration loading succeeds: intro print and
logging omitted; `warmMS` is the `servctrl.WarmMS()` call guarded by
`config.ConfigRuntime.Msh.SuspendAllow` (lines 52-59), `listenTCP` the
`net.Listen` call (line 72), `acceptLoop` the `listener.Accept` loop
(lines 80-88) that is the first point at which a client can connect. -/
def mainTrace (suspendAllow enableQuery : Bool) : List MainStep :=
  [MainStep.loadConfig, MainStep.startMshMgr, MainStep.waitReqSent]
    ++ (if suspendAllow then [MainStep.warmMS] else [])
    ++ [MainStep.startInput]
    ++ (if enableQuery then [MainStep.startQueryHandler] else [])
    ++ [MainStep.listenTCP, MainStep.acceptLoop]

/-- C9: at startup, `WarmMS` is invoked exactly once iff `SuspendAllow` is
enabled, and every such invocation happens strictly before the TCP listener
is opened (and a fortiori before any client connection is accepted): no
`warmMS` step occurs from the `listenTCP` step onward. -/
theorem main_prewarm_iff_suspendAllow (suspendAllow enableQuery : Bool) :
    (mainTrace suspendAllow enableQuery).countP
        (fun s => decide (s = MainStep.warmMS))
      = (if suspendAllow then 1 else 0)
      ∧ ((mainTrace suspendAllow enableQuery).dropWhile
          (fun s => decide (s ≠ MainStep.listenTCP))).countP
        (fun s => decide (s = MainStep.warmMS)) = 0 := by
  cases suspendAllow <;> cases enableQuery <;> exact ⟨rfl, rfl⟩

/-- Model of `strings.Split s "."` for Go strings represented as character
lists: split at every dot; `n` dots yield `n + 1` pieces. -/
def splitDot : List Char → List (List Char)
  | [] => [[]]
  | c :: rest =>
      if c = '.' then [] :: splitDot rest
      else
        match splitDot rest with
        | [] => [[c]]
        | piece :: pieces => (c :: piece) :: pieces

/-- Model of the digit run of `strconv.Atoi`: all characters must be
decimal digits and there must be at least one. -/
def parseDigits (cs : List Char) : Option Nat :=
  match cs with
  | [] => none
  | _ =>
      if cs.all Char.isDigit then
        some (cs.foldl (fun a c => 10 * a + (c.toNat - 48)) 0)
      else none

/-- Model of `strconv.Atoi`: an optional sign followed by at least one
decimal digit, with the 64-bit signed range check of `ParseInt`. -/
def goAtoi (cs : List Char) : Option Int :=
  let sc : Bool × List Char :=
    match cs with
    | '+' :: rest => (false, rest)
    | '-' :: rest => (true, rest)
    | _ => (false, cs)
  match parseDigits sc.2 with
  | none => none
  | some n =>
      let v : Int := if sc.1 then -(n : Int) else (n : Int)
      if -(2 ^ 63) ≤ v ∧ v ≤ 2 ^ 63 - 1 then some v else none

/-- The `i`-th version component of the loop in `compareVersions`
(`src/unnamed/part_002`, lines 320-337): parsed with `Atoi` when present,
defaulting to 0 when the version has fewer components. -/
def getComp (parts : List (List Char)) (i : Nat) : Option Int :=
  if h : i < parts.length then goAtoi (parts.get ⟨i, h⟩) else some 0

/-- The comparison loop of `compareVersions` over the given component
indices: first numerically differing component decides; a parse error of a
visited component aborts. -/
def compLoop (v1Parts v2Parts : List (List Char)) :
    List Nat → Option (Bool × Bool)
  | [] => some (false, false)
  | i :: rest =>
      match getComp v1Parts i, getComp v2Parts i with
      | some c1, some c2 =>
          if c1 < c2 then some (true, false)
          else if c2 < c1 then some (false, true)
          else compLoop v1Parts v2Parts rest
      | _, _ => none

/-- Model of `compareVersions` (`src/unnamed/part_002`, lines 309-351):
split both versions at dots, then compare components 0, 1, 2 numerically;
`some (isOutdated, isNewer)` models a nil error return, `none` an error. -/
def compareVersions (version1 version2 : List Char) : Option (Bool × Bool) :=
  let v1Parts := splitDot version1
  let v2Parts := splitDot version2
  if v1Parts.length = 0 ∨ v2Parts.length = 0 then none
  else compLoop v1Parts v2Parts [0, 1, 2]

lemma splitDot_ne_nil (cs : List Char) : splitDot cs ≠ [] := by
  cases cs with
  | nil => simp [splitDot]
  | cons c rest =>
      unfold splitDot
      by_cases h : c = '.'
      · simp [h]
      · rw [if_neg h]
        cases splitDot rest <;> simp

/-- The lexicographic comparison of the first three components, as the
claim describes the result of `compareVersions`: the first numerically
differing component among indices 0, 1, 2 decides; all equal means
neither outdated nor newer.  (Spec-side definition, to be compared with
the translated `compareVersions`.) -/
def cmp3 (a0 a1 a2 b0 b1 b2 : Int) : Bool × Bool :=
  if a0 < b0 then (true, false)
  else if b0 < a0 then (false, true)
  else if a1 < b1 then (true, false)
  else if b1 < a1 then (false, true)
  else if a2 < b2 then (true, false)
  else if b2 < a2 then (false, true)
  else (false, false)

/-- C10: when the first three dot-separated components of both versions
parse numerically (components beyond the third are never even parsed, and
missing components count as 0), `compareVersions` returns, with a nil
error, exactly the lexicographic comparison of those three component
pairs: `(false, false)` when they are pairwise equal — whatever the
strings contain from the fourth component on — `(true, false)` when the
first argument is numerically smaller at the first differing component,
and `(false, true)` when it is larger. -/
theorem compareVersions_first_three (version1 version2 : List Char)
    (a0 a1 a2 b0 b1 b2 : Int)
    (h10 : getComp (splitDot version1) 0 = some a0)
    (h11 : getComp (splitDot version1) 1 = some a1)
    (h12 : getComp (splitDot version1) 2 = some a2)
    (h20 : getComp (splitDot version2) 0 = some b0)
    (h21 : getComp (splitDot version2) 1 = some b1)
    (h22 : getComp (splitDot version2) 2 = some b2) :
    compareVersions version1 version2 = some (cmp3 a0 a1 a2 b0 b1 b2) := by
  unfold compareVersions
  rw [if_neg (by
    simp [List.length_eq_zero, splitDot_ne_nil version1, splitDot_ne_nil version2])]
  unfold compLoop
  rw [h10, h20]
  unfold compLoop
  rw [h11, h21]
  unfold compLoop
  rw [h12, h22]
  unfold cmp3
  split_ifs <;> simp [compLoop, *]

/-- C10 witness: versions 1.2.3.9 and 1.2.3.8x agree on their first three
components, so the result is `(false, false)` although the strings differ
in the fourth component (which is not even numeric in the second string). -/
theorem compareVersions_first_three_witness :
    compareVersions
        ['1', '.', '2', '.', '3', '.', '9']
        ['1', '.', '2', '.', '3', '.', '8', 'x']
      = some (false, false) := by
  have h := compareVersions_first_three
    ['1', '.', '2', '.', '3', '.', '9']
    ['1', '.', '2', '.', '3', '.', '8', 'x']
    1 2 3 1 2 3
    (by decide) (by decide) (by decide) (by decide) (by decide) (by decide)
  rw [h]
  rfl

end Msh
